import Mathlib

/-!
Verification of the boid flocking simulation (`src/main.rs`).

Embedding conventions:
* `f32` arithmetic is idealized as exact rational (`ℚ`) arithmetic.
* `glam::Vec3` becomes `Vec3` with three rational components.
* `Vec3::distance` (a square root) only ever appears in comparisons
  `dist < c` and `dist > 0`; these are embedded exactly via the squared
  distance: `Real.sqrt d2 < c ↔ 0 < c ∧ d2 < c ^ 2` (since `d2 ≥ 0`), and
  `Real.sqrt d2 > 0 ↔ d2 > 0`.
* `rand::Rng::gen_range(0.0..hi)` is modeled as `hi * u` for a unit draw
  `u ∈ [0, 1)` supplied as an explicit argument.
* In the source, `self.pos.clamp(..)` (line 81) and `self.vel.clamp(..)`
  (lines 84-87) discard their results: `glam::Vec3::clamp` consumes `self`
  and returns a new vector, and the returned value is not assigned.  The
  embedding reproduces this faithfully: no clamp is applied.
-/

/-- A 3-component vector of exact rationals, embedding `glam::Vec3`. -/
structure Vec3 where
  x : ℚ
  y : ℚ
  z : ℚ
deriving DecidableEq, Repr

namespace Vec3

def zero : Vec3 := ⟨0, 0, 0⟩

instance : Add Vec3 := ⟨fun a b => ⟨a.x + b.x, a.y + b.y, a.z + b.z⟩⟩

instance : Sub Vec3 := ⟨fun a b => ⟨a.x - b.x, a.y - b.y, a.z - b.z⟩⟩

instance : SMul ℚ Vec3 := ⟨fun c v => ⟨c * v.x, c * v.y, c * v.z⟩⟩

theorem add_def (a b : Vec3) : a + b = ⟨a.x + b.x, a.y + b.y, a.z + b.z⟩ := rfl

theorem sub_def (a b : Vec3) : a - b = ⟨a.x - b.x, a.y - b.y, a.z - b.z⟩ := rfl

theorem smul_def (c : ℚ) (v : Vec3) : c • v = ⟨c * v.x, c * v.y, c * v.z⟩ := rfl

end Vec3

/-- Squared Euclidean distance between two points. -/
def dist2 (p q : Vec3) : ℚ :=
  (p.x - q.x) ^ 2 + (p.y - q.y) ^ 2 + (p.z - q.z) ^ 2

/-- Exact embedding of the comparison `p.distance(q) < c` on `f32`:
`sqrt (dist2 p q) < c` holds iff `c` is positive and `dist2 p q < c ^ 2`. -/
def distLt (p q : Vec3) (c : ℚ) : Prop := 0 < c ∧ dist2 p q < c ^ 2

instance (p q : Vec3) (c : ℚ) : Decidable (distLt p q c) := by
  unfold distLt; infer_instance

/-- Embedding of `ggez::graphics::Color` (rgba). -/
structure Color where
  r : ℚ
  g : ℚ
  b : ℚ
  a : ℚ
deriving DecidableEq, Repr

/-- Embedding of the `Boid` struct: position, velocity, display color. -/
structure Boid where
  pos : Vec3
  vel : Vec3
  col : Color
deriving DecidableEq, Repr

/-- Embedding of the `BoidState` parameter record. -/
structure BoidState where
  max_speed : ℚ
  view_distance : ℚ
  min_distance : ℚ
  box_size : ℚ
  avoidance : ℚ
  centering : ℚ
  matching : ℚ
deriving DecidableEq, Repr

/-- Embedding of `BoidState::default()`: max_speed 500, view_distance 10, min_distance 5,
box_size 100, avoidance 0.5, centering 0.075, matching 0.2. -/
def boidStateDefault : BoidState :=
  { max_speed := 500
    view_distance := 10
    min_distance := 5
    box_size := 100
    avoidance := 1 / 2
    centering := 3 / 40
    matching := 1 / 5 }

/-- The accumulation loop of `Boid::center`: left-to-right over the slice,
adding the position and bumping the count for every boid strictly within
`view_distance` of `self`. -/
def centerLoop (self : Boid) (ps : BoidState) : List Boid → Vec3 × ℕ → Vec3 × ℕ
  | [], acc => acc
  | other :: rest, acc =>
      centerLoop self ps rest
        (if distLt self.pos other.pos ps.view_distance then
          (acc.1 + other.pos, acc.2 + 1)
        else acc)

/-- Embedding of `Boid::center`: if at least one neighbor was seen, divide the summed
positions by the count and steer toward the centroid. -/
def Boid.center (self : Boid) (boids : List Boid) (ps : BoidState) : Boid :=
  let acc := centerLoop self ps boids (Vec3.zero, 0)
  if 0 < acc.2 then
    { self with vel := self.vel + ps.centering • (((acc.2 : ℚ))⁻¹ • acc.1 - self.pos) }
  else self

/-- The agent-avoidance loop of `Boid::avoid`: accumulate `self.pos - other.pos`
for every other boid strictly within `min_distance` and at nonzero distance. -/
def avoidLoop (self : Boid) (ps : BoidState) : List Boid → Vec3 → Vec3
  | [], acc => acc
  | other :: rest, acc =>
      avoidLoop self ps rest
        (if distLt self.pos other.pos ps.min_distance ∧ 0 < dist2 self.pos other.pos then
          acc + (self.pos - other.pos)
        else acc)

/-- One axis of the wall-avoidance vector of `Boid::avoid`: the high face at
`box_size` contributes `p - box_size`, the low face at `0` contributes `p`,
each when the face is strictly within `min_distance` and strictly away. -/
def wallAxis (p bs md : ℚ) : ℚ :=
  (if |bs - p| < md ∧ 0 < |bs - p| then p - bs else 0) +
    (if |p| < md ∧ 0 < |p| then p else 0)

/-- The wall-avoidance vector of `Boid::avoid`, per axis. -/
def wallVec (pos : Vec3) (ps : BoidState) : Vec3 :=
  ⟨wallAxis pos.x ps.box_size ps.min_distance,
    wallAxis pos.y ps.box_size ps.min_distance,
    wallAxis pos.z ps.box_size ps.min_distance⟩

/-- Embedding of `Boid::avoid`: add the agent repulsion scaled by the `avoidance` weight,
then the wall repulsion scaled by the fixed multiplier `4.0`. -/
def Boid.avoid (self : Boid) (boids : List Boid) (ps : BoidState) : Boid :=
  { self with
    vel := self.vel + ps.avoidance • avoidLoop self ps boids Vec3.zero
      + (4 : ℚ) • wallVec self.pos ps }

/-- The accumulation loop of `Boid::matching`: same neighbor test as
`centerLoop`, summing velocities instead of positions. -/
def matchingLoop (self : Boid) (ps : BoidState) : List Boid → Vec3 × ℕ → Vec3 × ℕ
  | [], acc => acc
  | other :: rest, acc =>
      matchingLoop self ps rest
        (if distLt self.pos other.pos ps.view_distance then
          (acc.1 + other.vel, acc.2 + 1)
        else acc)

/-- Embedding of `Boid::matching`: if at least one neighbor was seen, steer the velocity
toward the average neighbor velocity. -/
def Boid.matching (self : Boid) (boids : List Boid) (ps : BoidState) : Boid :=
  let acc := matchingLoop self ps boids (Vec3.zero, 0)
  if 0 < acc.2 then
    { self with vel := self.vel + ps.matching • (((acc.2 : ℚ))⁻¹ • acc.1 - self.vel) }
  else self

/-- One coordinate of the `cmpgt`-driven reflection: if the position component
exceeds `box_size`, negate the velocity component. -/
def reflectHigh (p v bs : ℚ) : ℚ := if bs < p then -v else v

/-- One coordinate of the `cmplt`-driven reflection: if the position component
is below `0`, negate the velocity component. -/
def reflectLow (p v : ℚ) : ℚ := if p < 0 then -v else v

/-- Embedding of `Boid::update`: the three rules in order (center, avoid, matching), then
integration `pos += vel * dt`, then the two componentwise velocity
reflections.  The source's final `self.pos.clamp(..)` and `self.vel.clamp(..)`
statements discard their results (`glam::Vec3::clamp` returns a new vector),
so neither position nor velocity is altered by them; the embedding mirrors
that. -/
def Boid.update (self : Boid) (dt : ℚ) (boids : List Boid) (ps : BoidState) : Boid :=
  let b1 := self.center boids ps
  let b2 := b1.avoid boids ps
  let b3 := b2.matching boids ps
  let p := b3.pos + dt • b3.vel
  let v1 : Vec3 :=
    ⟨reflectHigh p.x b3.vel.x ps.box_size,
      reflectHigh p.y b3.vel.y ps.box_size,
      reflectHigh p.z b3.vel.z ps.box_size⟩
  let v2 : Vec3 := ⟨reflectLow p.x v1.x, reflectLow p.y v1.y, reflectLow p.z v1.z⟩
  { b3 with pos := p, vel := v2 }

/-- The per-tick loop of `MainState::update`: for `i` in order, copy boid `i`
out, update it against the current array (already-updated boids `0..i` plus
original boids `i..`), and write it back before moving on.  `done` is the
updated prefix, `todo` the untouched suffix. -/
def stepAux (dt : ℚ) (ps : BoidState) : List Boid → List Boid → List Boid
  | done, [] => done
  | done, b :: rest =>
      stepAux dt ps (done ++ [b.update dt (done ++ b :: rest) ps]) rest

/-- One full tick over the flock, as `MainState::update` performs it. -/
def stepFlock (dt : ℚ) (ps : BoidState) (flock : List Boid) : List Boid :=
  stepAux dt ps [] flock

/-- Modelled from the spec: the reference snapshot semantics, in which every
agent's new state is computed from the same pre-tick flock ("all neighbor
reads must see the start-of-tick snapshot").  Used only to compare against
`stepFlock`. -/
def stepFlockSnapshot (dt : ℚ) (ps : BoidState) (flock : List Boid) : List Boid :=
  flock.map (fun b => b.update dt flock ps)

/-- Embedding of `Boid::default()`: nine `gen_range` draws — three position components in
`[0, box_size)` where `box_size` is taken from a freshly constructed
`BoidState::default()` (not any live parameter set), three velocity
components in `[0, 10)`, three color channels in `[0, 1)`, alpha `1.0`.
Each `u i` is the unit draw in `[0, 1)` behind `gen_range(0.0..hi) = hi * u`. -/
def boidDefault (u : Fin 9 → ℚ) : Boid :=
  let bs := boidStateDefault
  { pos := ⟨bs.box_size * u 0, bs.box_size * u 1, bs.box_size * u 2⟩
    vel := ⟨10 * u 3, 10 * u 4, 10 * u 5⟩
    col := ⟨u 6, u 7, u 8, 1⟩ }

/-- The reset branch of `MainState::update`: discard the prior flock and push
100 fresh `Boid::default()` agents.  `u k` supplies the nine unit draws of the
`k`-th new agent. -/
def resetFlock (_prior : List Boid) (u : ℕ → Fin 9 → ℚ) : List Boid :=
  (List.range 100).map (fun k => boidDefault (u k))

/-! ### Concrete inputs used in evaluations -/

/-- An opaque-free display color used by concrete test boids. -/
def col0 : Color := ⟨0, 0, 0, 1⟩

/-- A single boid at the origin with extreme velocity `(1000, 0, 0)`. -/
def bFast : Boid := ⟨⟨0, 0, 0⟩, ⟨1000, 0, 0⟩, col0⟩

/-- A boid at the box center with velocity `(100, 0, 0)`: it overshoots the
high wall at `box_size = 100` within one tick at `dt = 1`. -/
def bOver : Boid := ⟨⟨50, 50, 50⟩, ⟨100, 0, 0⟩, col0⟩

/-- A stationary boid at the box center. -/
def bA : Boid := ⟨⟨50, 50, 50⟩, ⟨0, 0, 0⟩, col0⟩

/-- A boid at the same position as `bA` with velocity `(10, 0, 0)`. -/
def bB : Boid := ⟨⟨50, 50, 50⟩, ⟨10, 0, 0⟩, col0⟩

/-- The constant unit draw `1/2` for all nine `gen_range` calls. -/
def uHalf : Fin 9 → ℚ := fun _ => 1 / 2

/-- A parameter set whose live `box_size` has been moved to `1` (legal for the
UI slider range `[1, 1000]`). -/
def smallBox : BoidState := { boidStateDefault with box_size := 1 }

/-! ### Theorems -/

/-- Claim C1: the claim says every post-step position component lies in
`[0, box_size]`.  The code contradicts its own comment "Clamp position":
`self.pos.clamp(..)` discards its result, so a boid at the origin with
velocity `(1000, 0, 0)` ends the tick (dt = 1, default parameters) at
`pos.x = 1000`, far outside `[0, 100]`. -/
theorem c1_position_escapes_box :
    (stepFlock 1 boidStateDefault [bFast]).map Boid.pos = [⟨1000, 0, 0⟩] ∧
      ¬ ((1000 : ℚ) ≤ boidStateDefault.box_size) := by
  constructor
  · simp [stepFlock, stepAux, Boid.update, Boid.center, Boid.avoid, Boid.matching,
      centerLoop, avoidLoop, matchingLoop, wallVec, wallAxis, distLt, dist2,
      reflectHigh, reflectLow, boidStateDefault, bFast, col0, Vec3.add_def, Vec3.sub_def,
      Vec3.smul_def, Vec3.zero]
    norm_num
  · norm_num [boidStateDefault]

/-- Claim C2: the claim says every post-step velocity component lies in
`[-max_speed, max_speed]`.  The code contradicts its own comment
"Clamp velocity": `self.vel.clamp(..)` discards its result, so the same
boid ends the tick with `vel.x = -1000`, outside `[-500, 500]`. -/
theorem c2_velocity_escapes_clamp :
    (stepFlock 1 boidStateDefault [bFast]).map Boid.vel = [⟨-1000, 0, 0⟩] ∧
      ¬ (-boidStateDefault.max_speed ≤ (-1000 : ℚ)) := by
  constructor
  · simp [stepFlock, stepAux, Boid.update, Boid.center, Boid.avoid, Boid.matching,
      centerLoop, avoidLoop, matchingLoop, wallVec, wallAxis, distLt, dist2,
      reflectHigh, reflectLow, boidStateDefault, bFast, col0, Vec3.add_def, Vec3.sub_def,
      Vec3.smul_def, Vec3.zero]
    norm_num
  · norm_num [boidStateDefault]

/-- Claim C5: an overshooting boid does get its velocity sign flipped
(`100 ↦ -100`), but its position is NOT set to `box_size`: the clamp result
is discarded, so the position stays at the overshoot value `150 ≠ 100`. -/
theorem c5_overshoot_not_clamped :
    stepFlock 1 boidStateDefault [bOver] = [⟨⟨150, 50, 50⟩, ⟨-100, 0, 0⟩, col0⟩] ∧
      (150 : ℚ) ≠ boidStateDefault.box_size := by
  constructor
  · simp [stepFlock, stepAux, Boid.update, Boid.center, Boid.avoid, Boid.matching,
      centerLoop, avoidLoop, matchingLoop, wallVec, wallAxis, distLt, dist2,
      reflectHigh, reflectLow, boidStateDefault, bOver, col0, Vec3.add_def, Vec3.sub_def,
      Vec3.smul_def, Vec3.zero, Boid.mk.injEq, Vec3.mk.injEq]
    norm_num
  · norm_num [boidStateDefault]

/-- Claim C3 fails as stated: with two coincident boids (`bA` stationary,
`bB` at velocity `(10,0,0)`), `dt = 0` and default parameters, the in-place
tick gives `bB` velocity `91/10` (its matching rule reads `bA`'s
already-updated velocity `1`), while the start-of-tick-snapshot reference
gives `9`. -/
theorem c3_counterexample_sequential_reads :
    stepFlock 0 boidStateDefault [bA, bB] ≠ stepFlockSnapshot 0 boidStateDefault [bA, bB] := by
  simp [stepFlock, stepFlockSnapshot, stepAux, Boid.update, Boid.center, Boid.avoid,
    Boid.matching, centerLoop, avoidLoop, matchingLoop, wallVec, wallAxis, distLt, dist2,
    reflectHigh, reflectLow, boidStateDefault, bA, bB, col0, Vec3.add_def, Vec3.sub_def,
    Vec3.smul_def, Vec3.zero, Boid.mk.injEq, Vec3.mk.injEq]
  norm_num

/-- Claim C6: `step` is deterministic — identical flock snapshot, `dt` and
parameters give identical output.  In the embedding `stepFlock` is a pure
function, reflecting that `MainState::update`'s boid loop reads no
randomness and no state beyond the flock, `dt` and the parameters. -/
theorem c6_step_deterministic (dt₁ dt₂ : ℚ) (ps₁ ps₂ : BoidState)
    (l₁ l₂ : List Boid) (hdt : dt₁ = dt₂) (hps : ps₁ = ps₂) (hl : l₁ = l₂) :
    stepFlock dt₁ ps₁ l₁ = stepFlock dt₂ ps₂ l₂ := by
  subst hdt; subst hps; subst hl; rfl

/-- Witness for C6 at a concrete input. -/
theorem c6_step_deterministic_witness :
    stepFlock 1 boidStateDefault [bFast] = stepFlock 1 boidStateDefault [bFast] :=
  c6_step_deterministic 1 1 boidStateDefault boidStateDefault [bFast] [bFast] rfl rfl rfl

/-- Claim C8: after every reset the flock has exactly 100 agents, whatever
the prior flock was: the reset branch pushes 100 fresh `Boid::default()`
agents into a new vector. -/
theorem c8_reset_count (prior : List Boid) (u : ℕ → Fin 9 → ℚ) :
    (resetFlock prior u).length = 100 := by
  simp [resetFlock]

/-! ### The sequential-read characterization of the tick loop -/

/-- The list of new boid states the tick loop produces from the untouched
suffix `todo`, given that `done` is the already-updated prefix sitting in the
array: the head is updated against `done ++ todo`, and later elements see
the new head in their prefix. -/
def newOf (dt : ℚ) (ps : BoidState) : List Boid → List Boid → List Boid
  | _done, [] => []
  | done, b :: rest =>
      b.update dt (done ++ b :: rest) ps ::
        newOf dt ps (done ++ [b.update dt (done ++ b :: rest) ps]) rest

theorem stepAux_eq_append (dt : ℚ) (ps : BoidState) :
    ∀ todo done : List Boid, stepAux dt ps done todo = done ++ newOf dt ps done todo := by
  intro todo
  induction todo with
  | nil => intro done; simp [stepAux, newOf]
  | cons b rest ih =>
      intro done
      rw [stepAux, newOf, ih]
      simp

theorem newOf_length (dt : ℚ) (ps : BoidState) :
    ∀ todo done : List Boid, (newOf dt ps done todo).length = todo.length := by
  intro todo
  induction todo with
  | nil => intro done; rfl
  | cons b rest ih => intro done; rw [newOf]; simp [ih]

theorem newOf_get (dt : ℚ) (ps : BoidState) :
    ∀ (todo done : List Boid) (i : ℕ) (b : Boid), todo.get? i = some b →
      (newOf dt ps done todo).get? i =
        some (b.update dt ((done ++ (newOf dt ps done todo).take i) ++ todo.drop i) ps) := by
  intro todo
  induction todo with
  | nil => intro done i b h; simp at h
  | cons hd rest ih =>
      intro done i b h
      match i with
      | 0 =>
          simp only [List.get?] at h
          cases h
          simp [newOf]
      | Nat.succ j =>
          simp only [List.get?] at h
          rw [newOf]
          simp only [List.get?, List.take, List.drop]
          rw [ih (done ++ [hd.update dt (done ++ hd :: rest) ps]) j b h]
          simp

/-- Claim C3, amended: within a tick, each agent's own three rules read one
fixed array, but that array is not the pre-tick snapshot for every agent:
agent `i` reads the already-updated states of agents `0..i` followed by the
pre-tick states of agents `i..`; the first agent alone reads the pure
pre-tick flock.  (Length is preserved.) -/
theorem c3_sequential_update_characterization (dt : ℚ) (ps : BoidState)
    (l : List Boid) (i : ℕ) (b : Boid) (h : l.get? i = some b) :
    (stepFlock dt ps l).length = l.length ∧
      (stepFlock dt ps l).get? i =
        some (b.update dt ((stepFlock dt ps l).take i ++ l.drop i) ps) := by
  have hs : stepFlock dt ps l = newOf dt ps [] l := by
    rw [stepFlock, stepAux_eq_append]; rfl
  constructor
  · rw [hs, newOf_length]
  · rw [hs]
    have := newOf_get dt ps l [] i b h
    simpa using this

/-- Witness for C3's amended theorem at the counterexample flock: boid 1's
new state is computed against `[updated boid 0, pre-tick boid 1]`. -/
theorem c3_sequential_update_witness :
    (stepFlock 0 boidStateDefault [bA, bB]).length = 2 ∧
      (stepFlock 0 boidStateDefault [bA, bB]).get? 1 =
        some (bB.update 0 ((stepFlock 0 boidStateDefault [bA, bB]).take 1 ++ [bA, bB].drop 1)
          boidStateDefault) :=
  c3_sequential_update_characterization 0 boidStateDefault [bA, bB] 1 bB rfl

/-- Claim C4 fails as stated: `Boid::default()` draws positions from
`0.0..boid_state.box_size` where `boid_state` is a freshly constructed
`BoidState::default()`, not the live parameters.  With the live `box_size`
set to `1` and all unit draws equal to `1/2` (a legal draw, `0 ≤ 1/2 < 1`),
the new boid's `pos.x` is `50`, not inside `[0, 1)`. -/
theorem c4_counterexample_reset_ignores_live_box :
    (boidDefault uHalf).pos.x = 50 ∧
      ¬ ((boidDefault uHalf).pos.x < smallBox.box_size) ∧
      ((0 : ℚ) ≤ 1 / 2 ∧ (1 / 2 : ℚ) < 1) := by
  refine ⟨?_, ?_, by norm_num⟩ <;>
    norm_num [boidDefault, uHalf, boidStateDefault, smallBox]

/-- Claim C4, amended: reset constructs agents whose position components lie
in `[0, 100)` — `100` being the box_size of `BoidState::default()`, used
regardless of the live parameter value at reset time — whose velocity
components lie in `[0, 10)`, and whose color channels lie in `[0, 1)` with
alpha exactly `1`. -/
theorem c4_default_boid_ranges (u : Fin 9 → ℚ) (h : ∀ i, 0 ≤ u i ∧ u i < 1) :
    (0 ≤ (boidDefault u).pos.x ∧ (boidDefault u).pos.x < 100) ∧
      (0 ≤ (boidDefault u).pos.y ∧ (boidDefault u).pos.y < 100) ∧
      (0 ≤ (boidDefault u).pos.z ∧ (boidDefault u).pos.z < 100) ∧
      (0 ≤ (boidDefault u).vel.x ∧ (boidDefault u).vel.x < 10) ∧
      (0 ≤ (boidDefault u).vel.y ∧ (boidDefault u).vel.y < 10) ∧
      (0 ≤ (boidDefault u).vel.z ∧ (boidDefault u).vel.z < 10) ∧
      (0 ≤ (boidDefault u).col.r ∧ (boidDefault u).col.r < 1) ∧
      (0 ≤ (boidDefault u).col.g ∧ (boidDefault u).col.g < 1) ∧
      (0 ≤ (boidDefault u).col.b ∧ (boidDefault u).col.b < 1) ∧
      (boidDefault u).col.a = 1 := by
  simp only [boidDefault, boidStateDefault]
  refine ⟨⟨?_, ?_⟩, ⟨?_, ?_⟩, ⟨?_, ?_⟩, ⟨?_, ?_⟩, ⟨?_, ?_⟩, ⟨?_, ?_⟩,
    ⟨(h 6).1, (h 6).2⟩, ⟨(h 7).1, (h 7).2⟩, ⟨(h 8).1, (h 8).2⟩, trivial⟩ <;>
  · first
    | (obtain ⟨hl, hr⟩ := h 0; linarith)
    | (obtain ⟨hl, hr⟩ := h 1; linarith)
    | (obtain ⟨hl, hr⟩ := h 2; linarith)
    | (obtain ⟨hl, hr⟩ := h 3; linarith)
    | (obtain ⟨hl, hr⟩ := h 4; linarith)
    | (obtain ⟨hl, hr⟩ := h 5; linarith)

/-- Witness for C4's amended theorem at the all-`1/2` draw. -/
theorem c4_default_boid_ranges_witness :
    (0 ≤ (boidDefault uHalf).pos.x ∧ (boidDefault uHalf).pos.x < 100) ∧
      (0 ≤ (boidDefault uHalf).pos.y ∧ (boidDefault uHalf).pos.y < 100) ∧
      (0 ≤ (boidDefault uHalf).pos.z ∧ (boidDefault uHalf).pos.z < 100) ∧
      (0 ≤ (boidDefault uHalf).vel.x ∧ (boidDefault uHalf).vel.x < 10) ∧
      (0 ≤ (boidDefault uHalf).vel.y ∧ (boidDefault uHalf).vel.y < 10) ∧
      (0 ≤ (boidDefault uHalf).vel.z ∧ (boidDefault uHalf).vel.z < 10) ∧
      (0 ≤ (boidDefault uHalf).col.r ∧ (boidDefault uHalf).col.r < 1) ∧
      (0 ≤ (boidDefault uHalf).col.g ∧ (boidDefault uHalf).col.g < 1) ∧
      (0 ≤ (boidDefault uHalf).col.b ∧ (boidDefault uHalf).col.b < 1) ∧
      (boidDefault uHalf).col.a = 1 :=
  c4_default_boid_ranges uHalf (fun _ => by norm_num [uHalf])

/-! ### Neighbor-loop lemmas -/

theorem dist2_self (p : Vec3) : dist2 p p = 0 := by simp [dist2]

theorem distLt_self (p : Vec3) {c : ℚ} (hc : 0 < c) : distLt p p c :=
  ⟨hc, by rw [dist2_self]; positivity⟩

theorem centerLoop_append (self : Boid) (ps : BoidState) :
    ∀ (l₁ l₂ : List Boid) (acc : Vec3 × ℕ),
      centerLoop self ps (l₁ ++ l₂) acc = centerLoop self ps l₂ (centerLoop self ps l₁ acc) := by
  intro l₁
  induction l₁ with
  | nil => intro l₂ acc; rfl
  | cons o rest ih => intro l₂ acc; rw [List.cons_append, centerLoop, centerLoop, ih]

theorem avoidLoop_append (self : Boid) (ps : BoidState) :
    ∀ (l₁ l₂ : List Boid) (acc : Vec3),
      avoidLoop self ps (l₁ ++ l₂) acc = avoidLoop self ps l₂ (avoidLoop self ps l₁ acc) := by
  intro l₁
  induction l₁ with
  | nil => intro l₂ acc; rfl
  | cons o rest ih => intro l₂ acc; rw [List.cons_append, avoidLoop, avoidLoop, ih]

theorem matchingLoop_append (self : Boid) (ps : BoidState) :
    ∀ (l₁ l₂ : List Boid) (acc : Vec3 × ℕ),
      matchingLoop self ps (l₁ ++ l₂) acc =
        matchingLoop self ps l₂ (matchingLoop self ps l₁ acc) := by
  intro l₁
  induction l₁ with
  | nil => intro l₂ acc; rfl
  | cons o rest ih => intro l₂ acc; rw [List.cons_append, matchingLoop, matchingLoop, ih]

theorem centerLoop_count (self : Boid) (ps : BoidState) :
    ∀ (l : List Boid) (acc : Vec3 × ℕ),
      (centerLoop self ps l acc).2 = acc.2 + (centerLoop self ps l (Vec3.zero, 0)).2 := by
  intro l
  induction l with
  | nil => intro acc; simp [centerLoop]
  | cons o rest ih =>
      intro acc
      rw [centerLoop, centerLoop]
      by_cases hg : distLt self.pos o.pos ps.view_distance
      · rw [if_pos hg, if_pos hg, ih, ih ((Vec3.zero, 0).1 + o.pos, (Vec3.zero, 0).2 + 1)]
        omega
      · rw [if_neg hg, if_neg hg]
        exact ih acc

theorem matchingLoop_count (self : Boid) (ps : BoidState) :
    ∀ (l : List Boid) (acc : Vec3 × ℕ),
      (matchingLoop self ps l acc).2 = acc.2 + (matchingLoop self ps l (Vec3.zero, 0)).2 := by
  intro l
  induction l with
  | nil => intro acc; simp [matchingLoop]
  | cons o rest ih =>
      intro acc
      rw [matchingLoop, matchingLoop]
      by_cases hg : distLt self.pos o.pos ps.view_distance
      · rw [if_pos hg, if_pos hg, ih, ih ((Vec3.zero, 0).1 + o.vel, (Vec3.zero, 0).2 + 1)]
        omega
      · rw [if_neg hg, if_neg hg]
        exact ih acc

theorem matchingLoop_count_eq (self : Boid) (ps : BoidState) :
    ∀ l : List Boid,
      (matchingLoop self ps l (Vec3.zero, 0)).2 = (centerLoop self ps l (Vec3.zero, 0)).2 := by
  intro l
  induction l with
  | nil => rfl
  | cons o rest ih =>
      rw [matchingLoop, centerLoop]
      by_cases hg : distLt self.pos o.pos ps.view_distance
      · rw [if_pos hg, if_pos hg, matchingLoop_count, centerLoop_count, ih]
      · rw [if_neg hg, if_neg hg]
        exact ih

theorem centerLoop_count_pos (self : Boid) (ps : BoidState) (b : Boid)
    (hb : distLt self.pos b.pos ps.view_distance) :
    ∀ l : List Boid, b ∈ l → 0 < (centerLoop self ps l (Vec3.zero, 0)).2 := by
  intro l
  induction l with
  | nil => intro hm; simp at hm
  | cons o rest ih =>
      intro hm
      rw [centerLoop]
      rcases List.mem_cons.mp hm with he | hr
      · subst he
        rw [if_pos hb, centerLoop_count]
        omega
      · by_cases hg : distLt self.pos o.pos ps.view_distance
        · rw [if_pos hg, centerLoop_count]
          have := ih hr
          omega
        · rw [if_neg hg]
          exact ih hr

/-- Claim C7: for two boids at exactly zero distance, neither contributes to
the other's agent-avoidance repulsion vector (the `dist > 0` guard excludes
it, wherever it sits in the flock list), yet each is counted as a neighbor —
count bumped by exactly one — in the other's centering and velocity-matching
scans whenever `view_distance > 0`. -/
theorem c7_zero_distance_pair (a b : Boid) (l₁ l₂ : List Boid) (ps : BoidState)
    (hpos : a.pos = b.pos) (hview : 0 < ps.view_distance) :
    avoidLoop a ps (l₁ ++ b :: l₂) Vec3.zero = avoidLoop a ps (l₁ ++ l₂) Vec3.zero ∧
      (centerLoop a ps (l₁ ++ b :: l₂) (Vec3.zero, 0)).2 =
        (centerLoop a ps (l₁ ++ l₂) (Vec3.zero, 0)).2 + 1 ∧
      (matchingLoop a ps (l₁ ++ b :: l₂) (Vec3.zero, 0)).2 =
        (matchingLoop a ps (l₁ ++ l₂) (Vec3.zero, 0)).2 + 1 := by
  have hd0 : dist2 a.pos b.pos = 0 := by rw [hpos, dist2_self]
  have hsee : distLt a.pos b.pos ps.view_distance := by
    refine ⟨hview, ?_⟩
    rw [hd0]
    positivity
  refine ⟨?_, ?_, ?_⟩
  · rw [avoidLoop_append, avoidLoop_append, avoidLoop]
    rw [if_neg]
    intro hcon
    rw [hd0] at hcon
    exact lt_irrefl 0 hcon.2
  · rw [centerLoop_append, centerLoop_append, centerLoop, if_pos hsee,
      centerLoop_count, centerLoop_count a ps l₂ (centerLoop a ps l₁ (Vec3.zero, 0))]
    omega
  · rw [matchingLoop_append, matchingLoop_append, matchingLoop, if_pos hsee,
      matchingLoop_count, matchingLoop_count a ps l₂ (matchingLoop a ps l₁ (Vec3.zero, 0))]
    omega

/-- Witness for C7 with `bA` and `bB` coincident at `(50,50,50)` under the
default parameters. -/
theorem c7_zero_distance_pair_witness :
    avoidLoop bA boidStateDefault [bB] Vec3.zero = avoidLoop bA boidStateDefault [] Vec3.zero ∧
      (centerLoop bA boidStateDefault [bB] (Vec3.zero, 0)).2 =
        (centerLoop bA boidStateDefault [] (Vec3.zero, 0)).2 + 1 ∧
      (matchingLoop bA boidStateDefault [bB] (Vec3.zero, 0)).2 =
        (matchingLoop bA boidStateDefault [] (Vec3.zero, 0)).2 + 1 :=
  c7_zero_distance_pair bA bB [] [] boidStateDefault rfl (by norm_num [boidStateDefault])

/-- A parameter set whose `view_distance` is `0`: no boid sees any neighbor,
since no distance is `< 0`. -/
def zeroView : BoidState := { boidStateDefault with view_distance := 0 }

/-- Claim C9: an agent whose neighbor count is zero is left entirely
unchanged by the centering rule and by the velocity-matching rule (the
adjustment is skipped); and if the agent itself is in the scanned list, a
zero count is only possible when `view_distance ≤ 0`, because the distance
to itself is `0`. -/
theorem c9_zero_neighbors_skip (self : Boid) (boids : List Boid) (ps : BoidState)
    (h0 : (centerLoop self ps boids (Vec3.zero, 0)).2 = 0) :
    Boid.center self boids ps = self ∧ Boid.matching self boids ps = self ∧
      (self ∈ boids → ps.view_distance ≤ 0) := by
  refine ⟨?_, ?_, ?_⟩
  · simp [Boid.center, h0]
  · simp [Boid.matching, matchingLoop_count_eq, h0]
  · intro hm
    by_contra hv
    push_neg at hv
    have := centerLoop_count_pos self ps self (distLt_self self.pos hv) boids hm
    omega

/-- Witness for C9: with `view_distance = 0`, a boid scanning the flock
`[itself]` finds zero neighbors and both rules leave it unchanged. -/
theorem c9_zero_neighbors_skip_witness :
    Boid.center bA [bA] zeroView = bA ∧ Boid.matching bA [bA] zeroView = bA ∧
      (bA ∈ [bA] → zeroView.view_distance ≤ 0) :=
  c9_zero_neighbors_skip bA [bA] zeroView
    (by norm_num [centerLoop, distLt, zeroView, boidStateDefault])

/-! ### Color is a frame: simulation state is position and velocity only -/

/-- The simulation-relevant projection of a boid: its position and velocity,
without the display color. -/
def Boid.pv (b : Boid) : Vec3 × Vec3 := (b.pos, b.vel)

theorem center_col (self : Boid) (boids : List Boid) (ps : BoidState) :
    (Boid.center self boids ps).col = self.col := by
  simp only [Boid.center]
  split <;> rfl

theorem avoid_col (self : Boid) (boids : List Boid) (ps : BoidState) :
    (Boid.avoid self boids ps).col = self.col := rfl

theorem matching_col (self : Boid) (boids : List Boid) (ps : BoidState) :
    (Boid.matching self boids ps).col = self.col := by
  simp only [Boid.matching]
  split <;> rfl

theorem update_col (b : Boid) (dt : ℚ) (boids : List Boid) (ps : BoidState) :
    (b.update dt boids ps).col = b.col := by
  simp only [Boid.update]
  rw [matching_col, avoid_col, center_col]

theorem pv_pos {b₁ b₂ : Boid} (h : b₁.pv = b₂.pv) : b₁.pos = b₂.pos := by
  have := congrArg Prod.fst h
  simpa [Boid.pv] using this

theorem pv_vel {b₁ b₂ : Boid} (h : b₁.pv = b₂.pv) : b₁.vel = b₂.vel := by
  have := congrArg Prod.snd h
  simpa [Boid.pv] using this

theorem centerLoop_pv (s₁ s₂ : Boid) (ps : BoidState) (hp : s₁.pos = s₂.pos) :
    ∀ (l₁ l₂ : List Boid), l₁.map Boid.pv = l₂.map Boid.pv →
      ∀ acc, centerLoop s₁ ps l₁ acc = centerLoop s₂ ps l₂ acc := by
  intro l₁
  induction l₁ with
  | nil =>
      intro l₂ h acc
      rw [List.map_nil] at h
      rw [List.map_eq_nil_iff.mp h.symm]
      rfl
  | cons o₁ r₁ ih =>
      intro l₂ h acc
      cases l₂ with
      | nil => simp at h
      | cons o₂ r₂ =>
          simp only [List.map_cons, List.cons.injEq] at h
          obtain ⟨hpv, hrest⟩ := h
          rw [centerLoop, centerLoop, hp, pv_pos hpv]
          exact ih r₂ hrest _

theorem avoidLoop_pv (s₁ s₂ : Boid) (ps : BoidState) (hp : s₁.pos = s₂.pos) :
    ∀ (l₁ l₂ : List Boid), l₁.map Boid.pv = l₂.map Boid.pv →
      ∀ acc, avoidLoop s₁ ps l₁ acc = avoidLoop s₂ ps l₂ acc := by
  intro l₁
  induction l₁ with
  | nil =>
      intro l₂ h acc
      rw [List.map_nil] at h
      rw [List.map_eq_nil_iff.mp h.symm]
      rfl
  | cons o₁ r₁ ih =>
      intro l₂ h acc
      cases l₂ with
      | nil => simp at h
      | cons o₂ r₂ =>
          simp only [List.map_cons, List.cons.injEq] at h
          obtain ⟨hpv, hrest⟩ := h
          rw [avoidLoop, avoidLoop, hp, pv_pos hpv]
          exact ih r₂ hrest _

theorem matchingLoop_pv (s₁ s₂ : Boid) (ps : BoidState) (hp : s₁.pos = s₂.pos) :
    ∀ (l₁ l₂ : List Boid), l₁.map Boid.pv = l₂.map Boid.pv →
      ∀ acc, matchingLoop s₁ ps l₁ acc = matchingLoop s₂ ps l₂ acc := by
  intro l₁
  induction l₁ with
  | nil =>
      intro l₂ h acc
      rw [List.map_nil] at h
      rw [List.map_eq_nil_iff.mp h.symm]
      rfl
  | cons o₁ r₁ ih =>
      intro l₂ h acc
      cases l₂ with
      | nil => simp at h
      | cons o₂ r₂ =>
          simp only [List.map_cons, List.cons.injEq] at h
          obtain ⟨hpv, hrest⟩ := h
          rw [matchingLoop, matchingLoop, hp, pv_pos hpv, pv_vel hpv]
          exact ih r₂ hrest _

theorem center_pv (s₁ s₂ : Boid) (l₁ l₂ : List Boid) (ps : BoidState)
    (hpv : s₁.pv = s₂.pv) (hl : l₁.map Boid.pv = l₂.map Boid.pv) :
    (Boid.center s₁ l₁ ps).pv = (Boid.center s₂ l₂ ps).pv := by
  have hp := pv_pos hpv
  have hv := pv_vel hpv
  have hloop := centerLoop_pv s₁ s₂ ps hp l₁ l₂ hl (Vec3.zero, 0)
  simp only [Boid.center]
  rw [hloop, hp, hv]
  split <;> simp [Boid.pv, hp, hv]

theorem avoid_pv (s₁ s₂ : Boid) (l₁ l₂ : List Boid) (ps : BoidState)
    (hpv : s₁.pv = s₂.pv) (hl : l₁.map Boid.pv = l₂.map Boid.pv) :
    (Boid.avoid s₁ l₁ ps).pv = (Boid.avoid s₂ l₂ ps).pv := by
  have hp := pv_pos hpv
  have hv := pv_vel hpv
  have hloop := avoidLoop_pv s₁ s₂ ps hp l₁ l₂ hl Vec3.zero
  simp only [Boid.avoid, Boid.pv]
  rw [hloop, hp, hv]

theorem matching_pv (s₁ s₂ : Boid) (l₁ l₂ : List Boid) (ps : BoidState)
    (hpv : s₁.pv = s₂.pv) (hl : l₁.map Boid.pv = l₂.map Boid.pv) :
    (Boid.matching s₁ l₁ ps).pv = (Boid.matching s₂ l₂ ps).pv := by
  have hp := pv_pos hpv
  have hv := pv_vel hpv
  have hloop := matchingLoop_pv s₁ s₂ ps hp l₁ l₂ hl (Vec3.zero, 0)
  simp only [Boid.matching]
  rw [hloop, hp, hv]
  split <;> simp [Boid.pv, hp, hv]

theorem update_pv (dt : ℚ) (ps : BoidState) (b₁ b₂ : Boid) (l₁ l₂ : List Boid)
    (hpv : b₁.pv = b₂.pv) (hl : l₁.map Boid.pv = l₂.map Boid.pv) :
    (b₁.update dt l₁ ps).pv = (b₂.update dt l₂ ps).pv := by
  have h3 : (Boid.matching (Boid.avoid (Boid.center b₁ l₁ ps) l₁ ps) l₁ ps).pv =
      (Boid.matching (Boid.avoid (Boid.center b₂ l₂ ps) l₂ ps) l₂ ps).pv :=
    matching_pv _ _ _ _ _ (avoid_pv _ _ _ _ _ (center_pv _ _ _ _ _ hpv hl) hl) hl
  have hp3 := pv_pos h3
  have hv3 := pv_vel h3
  simp only [Boid.update, Boid.pv]
  rw [hp3, hv3]

theorem stepAux_col (dt : ℚ) (ps : BoidState) :
    ∀ todo done : List Boid,
      (stepAux dt ps done todo).map Boid.col = done.map Boid.col ++ todo.map Boid.col := by
  intro todo
  induction todo with
  | nil => intro done; simp [stepAux]
  | cons b rest ih =>
      intro done
      rw [stepAux, ih]
      simp [update_col]

theorem stepAux_pv (dt : ℚ) (ps : BoidState) :
    ∀ t₁ t₂ d₁ d₂ : List Boid, t₁.map Boid.pv = t₂.map Boid.pv →
      d₁.map Boid.pv = d₂.map Boid.pv →
      (stepAux dt ps d₁ t₁).map Boid.pv = (stepAux dt ps d₂ t₂).map Boid.pv := by
  intro t₁
  induction t₁ with
  | nil =>
      intro t₂ d₁ d₂ ht hd
      rw [List.map_nil] at ht
      rw [List.map_eq_nil_iff.mp ht.symm]
      simpa [stepAux] using hd
  | cons b₁ r₁ ih =>
      intro t₂ d₁ d₂ ht hd
      cases t₂ with
      | nil => simp at ht
      | cons b₂ r₂ =>
          simp only [List.map_cons, List.cons.injEq] at ht
          obtain ⟨hb, hr⟩ := ht
          rw [stepAux, stepAux]
          apply ih r₂ _ _ hr
          have hfull : (d₁ ++ b₁ :: r₁).map Boid.pv = (d₂ ++ b₂ :: r₂).map Boid.pv := by
            simp [List.map_append, hd, hb, hr]
          have hupd := update_pv dt ps b₁ b₂ (d₁ ++ b₁ :: r₁) (d₂ ++ b₂ :: r₂) hb hfull
          simp [List.map_append, hd, hupd]

/-- The boid `bA` recolored white: identical position and velocity, different color. -/
def bAWhite : Boid := ⟨⟨50, 50, 50⟩, ⟨0, 0, 0⟩, ⟨1, 1, 1, 1⟩⟩

/-- Claim C10: `step` never modifies any agent's color, and simulation logic
never reads colors — two flocks identical except for agent colors produce
identical post-step positions and velocities. -/
theorem c10_color_untouched_unread (dt : ℚ) (ps : BoidState) (l l₁ l₂ : List Boid)
    (h : l₁.map Boid.pv = l₂.map Boid.pv) :
    (stepFlock dt ps l).map Boid.col = l.map Boid.col ∧
      (stepFlock dt ps l₁).map Boid.pv = (stepFlock dt ps l₂).map Boid.pv := by
  constructor
  · rw [stepFlock, stepAux_col]
    rfl
  · exact stepAux_pv dt ps l₁ l₂ [] [] h rfl

/-- Witness for C10: one step on `[bA]` keeps the color, and recoloring `bA`
white changes no post-step position or velocity. -/
theorem c10_color_untouched_unread_witness :
    (stepFlock 1 boidStateDefault [bA]).map Boid.col = [bA].map Boid.col ∧
      (stepFlock 1 boidStateDefault [bA]).map Boid.pv =
        (stepFlock 1 boidStateDefault [bAWhite]).map Boid.pv :=
  c10_color_untouched_unread 1 boidStateDefault [bA] [bA] [bAWhite] rfl
